import Mathlib

/-!
Shallow embedding of the linkding-tg-relay bot (main.go) and proofs of the
specification claims about it.  Go strings are modelled as Lean `String`
(`[]rune(s)` corresponds to `s.data : List Char`); Go slice-bounds panics are
modelled by `Option`-valued functions returning `none`; fallible Go calls
returning `error` are modelled with `Except`.
-/

namespace LinkdingTgRelay

/-! ## UTF-16 encoding (mirrors Go package unicode/utf16) -/

/-- Encoding of one rune to UTF-16 code units (Go utf16.Encode, per rune):
a scalar value below 0x10000 is one code unit; otherwise a surrogate pair. -/
def utf16EncodeChar (c : Char) : List Nat :=
  if c.toNat < 0x10000 then [c.toNat]
  else
    let v := c.toNat - 0x10000
    [0xD800 + v / 0x400, 0xDC00 + v % 0x400]

/-- Go utf16.Encode on a rune slice. -/
def utf16Encode (l : List Char) : List Nat :=
  (l.map utf16EncodeChar).flatten

/-- Go utf16.Decode: surrogate pairs are recombined, unpaired surrogates
become U+FFFD (the replacement character). -/
def utf16Decode : List Nat → List Char
  | [] => []
  | [u] =>
    if u < 0xD800 ∨ 0xE000 ≤ u then [Char.ofNat u] else [Char.ofNat 0xFFFD]
  | u :: v :: rest =>
    if u < 0xD800 ∨ 0xE000 ≤ u then
      Char.ofNat u :: utf16Decode (v :: rest)
    else if 0xD800 ≤ u ∧ u < 0xDC00 ∧ 0xDC00 ≤ v ∧ v < 0xE000 then
      Char.ofNat (0x10000 + (u - 0xD800) * 0x400 + (v - 0xDC00)) :: utf16Decode rest
    else
      Char.ofNat 0xFFFD :: utf16Decode (v :: rest)
termination_by l => l.length
decreasing_by all_goals (simp [List.length_cons]; try omega)

/-- The length of a string in UTF-16 code units. -/
def utf16Length (s : String) : Nat :=
  (utf16Encode s.data).length

/-- sliceUtf16 from main.go:
`string(utf16.Decode(utf16.Encode([]rune(s))[start:end]))`.
The Go slice expression panics unless `start ≤ end ≤ len`; the panic is
modelled as `none`. -/
def sliceUtf16 (s : String) (start endPos : Nat) : Option String :=
  let encoded := utf16Encode s.data
  if start ≤ endPos ∧ endPos ≤ encoded.length then
    some (String.mk (utf16Decode ((encoded.drop start).take (endPos - start))))
  else
    none

/-! ## Data model (echotron message types, as used by main.go) -/

/-- echotron.MessageEntity: the fields read by main.go. -/
structure MessageEntity where
  type : String
  URL : String
  Offset : Nat
  Length : Nat
deriving Repr, DecidableEq

/-- echotron.LinkPreviewOptions: the fields read by main.go. -/
structure LinkPreviewOptions where
  URL : String
  IsDisabled : Bool
deriving Repr, DecidableEq

/-- echotron.User: the field read by main.go. -/
structure User where
  Username : String
deriving Repr, DecidableEq

/-- echotron.Message: the fields read by main.go.  The Go
`*LinkPreviewOptions` nil pointer is modelled by `Option`. -/
structure Message where
  From : User
  Text : String
  Entities : List MessageEntity
  CaptionEntities : List MessageEntity
  LinkPreviewOptions : Option LinkPreviewOptions
deriving Repr

/-- echotron.Update: the field read by main.go (`nil` message is `none`). -/
structure TgUpdate where
  Message : Option Message

/-! ## URL extraction (main.go lines 28-92) -/

/-- Loop body of GetUrlsFromEntities over the combined entity list: skip
entities that are neither "url" nor "text_link"; take the explicit URL when
set, otherwise slice the message text at UTF-16 offsets.  A slice-bounds
panic (`none` from sliceUtf16) aborts the whole extraction. -/
def getUrlsFromEntitiesLoop (text : String) : List MessageEntity → Option (List String)
  | [] => some []
  | e :: rest =>
    if e.type ≠ "url" ∧ e.type ≠ "text_link" then
      getUrlsFromEntitiesLoop text rest
    else if e.URL ≠ "" then
      (getUrlsFromEntitiesLoop text rest).map (fun urls => e.URL :: urls)
    else
      match sliceUtf16 text e.Offset (e.Offset + e.Length) with
      | none => none
      | some u => (getUrlsFromEntitiesLoop text rest).map (fun urls => u :: urls)

/-- GetUrlsFromEntities from main.go: iterates over Entities ++
CaptionEntities, always slicing against msg.Text. -/
def GetUrlsFromEntities (msg : Message) : Option (List String) :=
  getUrlsFromEntitiesLoop msg.Text (msg.Entities ++ msg.CaptionEntities)

/-- GetUrlsFromLinkPreview from main.go. -/
def GetUrlsFromLinkPreview (msg : Message) : List String :=
  match msg.LinkPreviewOptions with
  | none => []
  | some link => if link.URL ≠ "" ∧ link.IsDisabled = false then [link.URL] else []

/-- distinct from main.go: the `seen` set is modelled by the list of strings
already emitted. -/
def distinctLoop : List String → List String → List String
  | [], _ => []
  | s :: rest, seen =>
    if s ∈ seen then distinctLoop rest seen else s :: distinctLoop rest (s :: seen)

/-- distinct from main.go: removes duplicates keeping the first occurrence. -/
def distinct (arr : List String) : List String :=
  distinctLoop arr []

/-- The UrlExtractor function type from main.go, for the pure (non-panicking)
extractors fed to GetUrlsWithExtractors. -/
def UrlExtractor : Type := Message → List String

/-- GetUrlsWithExtractors from main.go: appends the output of each extractor in
order, then deduplicates with distinct. -/
def GetUrlsWithExtractors (extractors : List UrlExtractor) : UrlExtractor :=
  fun msg => distinct (extractors.foldl (fun urls extractor => urls ++ extractor msg) [])

/-- contains from main.go. -/
def contains (arr : List String) (str : String) : Bool :=
  arr.any (fun a => a = str)

/-! ## Bookmark repository (main.go lines 94-155) -/

/-- CreateBookmarkPayload from main.go (JSON field names in comments):
url, title, description, notes, is_archived, unread, shared, tag_names. -/
structure CreateBookmarkPayload where
  URL : String
  Title : String
  Description : String
  Notes : String
  IsArchived : Bool
  Unread : Bool
  Shared : Bool
  TagNames : List String
deriving Repr, DecidableEq

/-- An HTTP request as built by linkdingRepository.CreateBookmark. -/
structure HttpRequest where
  Method : String
  URL : String
  Body : String
  Headers : List (String × String)
deriving Repr, DecidableEq

/-- An HTTP response as consumed by main.go: status code and (already read)
body string. -/
structure HttpResponse where
  StatusCode : Nat
  Body : String
  ContentType : String
deriving Repr, DecidableEq

/-- The error values produced by linkdingRepository.CreateBookmark:
errorx.Decorate for each fallible step, and
errorx.IllegalState.New for an unexpected status code. -/
inductive RepoError where
  | decorated (msg : String)
  | unexpectedStatus (code : Nat)
deriving Repr, DecidableEq

/-- The fallible external collaborators of CreateBookmark: JSON
serialization, url.JoinPath, http.NewRequest, client.Do, io.ReadAll. -/
structure RepoTransport where
  jsonMarshal : CreateBookmarkPayload → Except String String
  urlJoinPath : String → String → Except String String
  httpNewRequest : String → String → String → Except String HttpRequest
  clientDo : HttpRequest → Except String HttpResponse
  ioReadAll : HttpResponse → Except String String

/-- linkdingRepository fields from main.go. -/
structure LinkdingRepositoryState where
  baseUrl : String
  apiToken : String

/-- The two req.Header.Set calls of CreateBookmark: Content-Type
application/json and Authorization with the token. -/
def setBookmarkHeaders (req : HttpRequest) (apiToken : String) : HttpRequest :=
  { req with Headers := req.Headers ++
      [("Content-Type", "application/json"),
       ("Authorization", "Token " ++ apiToken)] }

/-- linkdingRepository.CreateBookmark from main.go: marshal the payload,
join the bookmark path, build a POST request, set Content-Type and
Authorization headers, send, read the body, then demand status 201
(http.StatusCreated); any other status is an error carrying that code. -/
def CreateBookmark (t : RepoTransport) (l : LinkdingRepositoryState)
    (payload : CreateBookmarkPayload) : Except RepoError Unit :=
  match t.jsonMarshal payload with
  | .error _ => .error (.decorated "failed to marshal payload")
  | .ok postBody =>
    match t.urlJoinPath l.baseUrl "api/bookmarks/" with
    | .error _ => .error (.decorated "failed to join path")
    | .ok path =>
      match t.httpNewRequest "POST" path postBody with
      | .error _ => .error (.decorated "failed to create request")
      | .ok req =>
        match t.clientDo (setBookmarkHeaders req l.apiToken) with
        | .error _ => .error (.decorated "failed to send request")
        | .ok resp =>
          match t.ioReadAll resp with
          | .error _ => .error (.decorated "failed to read response body")
          | .ok _respBody =>
            if resp.StatusCode ≠ 201 then
              .error (.unexpectedStatus resp.StatusCode)
            else
              .ok ()

/-! ## Page info service (main.go lines 157-201) -/

/-- PageInfo from main.go. -/
structure PageInfo where
  url : String
  title : String
  description : String
deriving Repr, DecidableEq

/-- The oEmbed info consulted by GetPageInfo (the GenerateOembedFor result of htmlinfo; nil is modelled as none). -/
structure OembedInfo where
  Title : String
  Description : String
deriving Repr, DecidableEq

/-- The parse result of htmlinfo.HTMLInfo as consumed by GetPageInfo:
title, description, and the oEmbed object GenerateOembedFor would return
for the fetched URL. -/
structure HtmlInfoResult where
  Title : String
  Description : String
  Oembed : Option OembedInfo
deriving Repr, DecidableEq

/-- The fallible external collaborators of GetPageInfo: http.Get and
the Parse of htmlinfo (the latter also yields what GenerateOembedFor returns). -/
structure PageInfoEnv where
  httpGet : String → Except String HttpResponse
  htmlParse : String → String → String → Except String HtmlInfoResult

/-- pageInfoService.GetPageInfo from main.go: GET the URL, parse the body as
HTML, then prefer the generated oEmbed title/description over the raw HTML
info when an oEmbed object exists. -/
def GetPageInfo (env : PageInfoEnv) (url : String) : Except String PageInfo :=
  match env.httpGet url with
  | .error _ => .error "failed to fetch URL"
  | .ok resp =>
    match env.htmlParse resp.Body url resp.ContentType with
    | .error _ => .error "failed to parse page info"
    | .ok info =>
      match info.Oembed with
      | some oembed => .ok ⟨url, oembed.Title, oembed.Description⟩
      | none => .ok ⟨url, info.Title, info.Description⟩

/-! ## Link service (main.go lines 203-250) -/

/-- The collaborators of linkdingLinkService.Save: urlx.NormalizeString,
the page info service, and the repository. -/
structure LinkServiceEnv where
  normalizeString : String → Except String String
  getPageInfo : String → Except String PageInfo
  createBookmark : CreateBookmarkPayload → Except RepoError Unit

/-- The observable effects of one Save call: its returned error (if any) and
the lists of page-info fetches and bookmark POSTs performed, in order. -/
structure SaveTrace where
  result : Except String Unit
  fetchCalls : List String
  postCalls : List CreateBookmarkPayload
deriving Repr

/-- linkdingLinkService.Save from main.go: normalize, fetch page info for
the normalized URL, build the payload with fixed defaults, submit it. -/
def Save (env : LinkServiceEnv) (url : String) : SaveTrace :=
  match env.normalizeString url with
  | .error _ => ⟨.error "failed to normalize URL", [], []⟩
  | .ok normalizedUrl =>
    match env.getPageInfo normalizedUrl with
    | .error _ => ⟨.error "failed to get page info", [normalizedUrl], []⟩
    | .ok pageInfo =>
      let payload : CreateBookmarkPayload :=
        { URL := normalizedUrl
          Title := pageInfo.title
          Description := pageInfo.description
          Notes := ""
          IsArchived := false
          Unread := true
          Shared := false
          TagNames := [] }
      match env.createBookmark payload with
      | .error _ => ⟨.error "failed to create bookmark", [normalizedUrl], [payload]⟩
      | .ok _ => ⟨.ok (), [normalizedUrl], [payload]⟩

/-! ## Message handler (main.go lines 252-296) -/

/-- The bot struct from main.go: allow-list plus injected collaborators.
The link service is abstracted by its result per URL (nil error or not). -/
structure Bot where
  allowedUsernames : List String
  urlExtractor : UrlExtractor
  linkServiceSave : String → Except String Unit

/-- The observable effects of one bot.Update call: the reply texts passed to
maybeSendMessage (each is one send attempt), how many times the URL
extractor ran, and the URLs passed to linkService.Save, in order. -/
structure BotTrace where
  replies : List String
  extractorCalls : Nat
  saveCalls : List String
deriving Repr, DecidableEq

/-- bot.Update from main.go: ignore updates without a message, reject
senders outside the allow-list, extract URLs, save the first one, and reply
with the outcome. -/
def botUpdate (b : Bot) (update : TgUpdate) : BotTrace :=
  match update.Message with
  | none => ⟨[], 0, []⟩
  | some msg =>
    if ¬ contains b.allowedUsernames msg.From.Username then
      ⟨["You are not allowed to use this bot"], 0, []⟩
    else
      match b.urlExtractor msg with
      | [] => ⟨["No URLs found in the message"], 1, []⟩
      | firstUrl :: _ =>
        match b.linkServiceSave firstUrl with
        | .error _ => ⟨["Error"], 1, [firstUrl]⟩
        | .ok _ => ⟨["Saved!"], 1, [firstUrl]⟩

/-! ## Specification-side definition for the deduplication contract -/

/-- Deduplication as the specification words it: keep the first occurrence
of each string, in first-seen order (left fold that appends a string only
if it has not been seen yet).  Used to compare the source function distinct
against the specification wording. -/
def dedupKeepFirstSpec (arr : List String) : List String :=
  arr.foldl (fun acc x => if x ∈ acc then acc else acc ++ [x]) []

/-! ## Concrete instances used by the witnesses -/

/-- A message from user alice with no text, entities or link preview. -/
def msgAlice : Message := ⟨⟨"alice"⟩, "", [], [], none⟩

/-- A message from user bob with no text, entities or link preview. -/
def msgBob : Message := ⟨⟨"bob"⟩, "", [], [], none⟩

/-- A message whose text has a character outside the Basic Multilingual
Plane (U+1F600) before the link, with a url entity at UTF-16 offset 3,
length 12, and no explicit URL. -/
def emojiMsg : Message := ⟨⟨"alice"⟩, "😀 http://a.com", [⟨"url", "", 3, 12⟩], [], none⟩

/-- A caption-style message: empty Text but a caption entity of length 5,
whose slice bounds exceed the UTF-16 length of Text. -/
def captionMsg : Message := ⟨⟨"alice"⟩, "", [], [⟨"url", "", 0, 5⟩], none⟩

/-- A bot allowing alice whose extractor always finds one URL and whose
link service always succeeds. -/
def botOk : Bot := ⟨["alice"], fun _ => ["http://a.com"], fun _ => .ok ()⟩

/-- A link service environment where every collaborator succeeds. -/
def envC2 : LinkServiceEnv :=
  ⟨fun s => .ok s, fun u => .ok ⟨u, "Example", ""⟩, fun _ => .ok ()⟩

/-- A repository transport whose fallible steps all succeed and whose
server answers 200 (not 201). -/
def transportC3 : RepoTransport :=
  ⟨fun _ => .ok "{}",
   fun _ _ => .ok "http://linkding/api/bookmarks/",
   fun m u b => .ok ⟨m, u, b, []⟩,
   fun _ => .ok ⟨200, "oops", ""⟩,
   fun r => .ok r.Body⟩

/-- Concrete linkding repository configuration. -/
def repoC3 : LinkdingRepositoryState := ⟨"http://linkding", "tok"⟩

/-- A concrete bookmark payload. -/
def payloadC3 : CreateBookmarkPayload :=
  ⟨"http://a.com", "", "", "", false, true, false, []⟩

/-- A page info environment whose GET and parse succeed but whose page has
no title, no description and no oEmbed data. -/
def pageEnvC8 : PageInfoEnv :=
  ⟨fun _ => .ok ⟨200, "<html></html>", "text/html"⟩,
   fun _ _ _ => .ok ⟨"", "", none⟩⟩

/-! ## Helper lemmas -/

theorem char_toNat_valid (c : Char) :
    c.toNat < 0xD800 ∨ (0xDFFF < c.toNat ∧ c.toNat < 0x110000) := by
  rcases c.valid with h | ⟨h1, h2⟩
  · left; exact h
  · right; exact ⟨h1, h2⟩

theorem utf16Encode_append (a b : List Char) :
    utf16Encode (a ++ b) = utf16Encode a ++ utf16Encode b := by
  simp [utf16Encode]

theorem utf16Decode_cons_of_nonsurrogate (u : Nat) (rest : List Nat)
    (h : u < 0xD800 ∨ 0xE000 ≤ u) :
    utf16Decode (u :: rest) = Char.ofNat u :: utf16Decode rest := by
  cases rest with
  | nil => simp only [utf16Decode]; rw [if_pos h]
  | cons v rest2 => simp only [utf16Decode]; rw [if_pos h]

theorem utf16Decode_surrogate_pair (u v : Nat) (rest : List Nat)
    (h1 : 0xD800 ≤ u) (h2 : u < 0xDC00) (h3 : 0xDC00 ≤ v) (h4 : v < 0xE000) :
    utf16Decode (u :: v :: rest)
      = Char.ofNat (0x10000 + (u - 0xD800) * 0x400 + (v - 0xDC00)) :: utf16Decode rest := by
  simp only [utf16Decode]
  rw [if_neg (by omega), if_pos ⟨h1, h2, h3, h4⟩]

theorem utf16Decode_encode (l : List Char) : utf16Decode (utf16Encode l) = l := by
  induction l with
  | nil => simp [utf16Encode, utf16Decode]
  | cons c l ih =>
    by_cases hc : c.toNat < 0x10000
    · have henc : utf16Encode (c :: l) = c.toNat :: utf16Encode l := by
        simp [utf16Encode, utf16EncodeChar, hc]
      have hns : c.toNat < 0xD800 ∨ 0xE000 ≤ c.toNat := by
        rcases char_toNat_valid c with h | ⟨h1, _⟩
        · left; exact h
        · right; omega
      rw [henc, utf16Decode_cons_of_nonsurrogate _ _ hns, ih, Char.ofNat_toNat]
    · have hlt : c.toNat < 0x110000 := by
        rcases char_toNat_valid c with h | ⟨_, h2⟩ <;> omega
      have henc : utf16Encode (c :: l)
          = (0xD800 + (c.toNat - 0x10000) / 0x400)
            :: (0xDC00 + (c.toNat - 0x10000) % 0x400) :: utf16Encode l := by
        simp [utf16Encode, utf16EncodeChar, hc]
      rw [henc, utf16Decode_surrogate_pair _ _ _ (by omega) (by omega) (by omega) (by omega), ih]
      have harith : 0x10000 + (0xD800 + (c.toNat - 0x10000) / 0x400 - 0xD800) * 0x400
          + (0xDC00 + (c.toNat - 0x10000) % 0x400 - 0xDC00) = c.toNat := by
        have hdm := Nat.div_add_mod (c.toNat - 0x10000) 0x400
        omega
      rw [harith, Char.ofNat_toNat]

theorem sliceUtf16_of_append (pre link post : String) :
    sliceUtf16 (pre ++ link ++ post) (utf16Length pre) (utf16Length pre + utf16Length link)
      = some link := by
  have hdata : (pre ++ link ++ post).data = pre.data ++ (link.data ++ post.data) := by
    simp [String.data_append, List.append_assoc]
  simp only [sliceUtf16, utf16Length, hdata, utf16Encode_append]
  rw [if_pos (by simp [List.length_append])]
  rw [List.drop_left, Nat.add_sub_cancel_left]
  rw [List.take_left (utf16Encode link.data) (utf16Encode post.data)]
  rw [utf16Decode_encode]

/-! ## Theorems for the claims -/

theorem foldl_extract_eq_flatten (msg : Message) (l : List UrlExtractor) :
    ∀ (init : List String),
      l.foldl (fun urls extractor => urls ++ extractor msg) init
        = init ++ (l.map (fun extractor => extractor msg)).flatten := by
  induction l with
  | nil => intro init; simp
  | cons e rest ih => intro init; simp [List.foldl_cons, ih]

theorem distinctLoop_eq_foldl (l : List String) :
    ∀ (acc seen : List String), (∀ x, x ∈ seen ↔ x ∈ acc) →
      l.foldl (fun acc x => if x ∈ acc then acc else acc ++ [x]) acc
        = acc ++ distinctLoop l seen := by
  induction l with
  | nil => intro acc seen _; simp [distinctLoop]
  | cons s rest ih =>
    intro acc seen h
    by_cases hs : s ∈ seen
    · have hs2 : s ∈ acc := (h s).1 hs
      simp only [List.foldl_cons, distinctLoop, if_pos hs, if_pos hs2]
      exact ih acc seen h
    · have hs2 : s ∉ acc := fun hmem => hs ((h s).2 hmem)
      simp only [List.foldl_cons, distinctLoop, if_neg hs, if_neg hs2]
      rw [ih (acc ++ [s]) (s :: seen)
        (by intro x; simp [List.mem_append, List.mem_cons, h x, or_comm])]
      simp

theorem distinct_eq_dedupKeepFirstSpec (arr : List String) :
    dedupKeepFirstSpec arr = distinct arr := by
  have h := distinctLoop_eq_foldl arr [] [] (by simp)
  simpa [dedupKeepFirstSpec, distinct] using h

/-- Claim C6: for every message, the combined extractor returns the
concatenation of the outputs of the individual extractors in extractor
order, deduplicated by exact string equality keeping the first occurrence;
in particular, for extractor outputs [http a, http b] and [http a]
the combined result is exactly [http a, http b]. -/
theorem combined_extractor_first_seen_dedup :
    (∀ (extractors : List UrlExtractor) (msg : Message),
        GetUrlsWithExtractors extractors msg
          = dedupKeepFirstSpec ((extractors.map (fun extractor => extractor msg)).flatten))
    ∧ GetUrlsWithExtractors
        [fun _ => ["http://a.com", "http://b.com"], fun _ => ["http://a.com"]] msgAlice
      = ["http://a.com", "http://b.com"] := by
  constructor
  · intro extractors msg
    simp only [GetUrlsWithExtractors, distinct_eq_dedupKeepFirstSpec,
      foldl_extract_eq_flatten, List.nil_append]
  · decide

/-- Claim C5: for every inbound message whose sender username is not in
the allow-list, the handler replies with the rejection text and never
invokes the URL extractor or the link service (extractorCalls = 0 and
saveCalls = [], hence no metadata fetch and no bookmark POST). -/
theorem handler_rejects_disallowed (b : Bot) (u : TgUpdate) (msg : Message)
    (hm : u.Message = some msg)
    (hallow : contains b.allowedUsernames msg.From.Username = false) :
    botUpdate b u = ⟨["You are not allowed to use this bot"], 0, []⟩ := by
  simp only [botUpdate, hm]
  rw [if_pos (by simp [hallow])]

theorem handler_rejects_disallowed_witness :
    botUpdate botOk ⟨some msgBob⟩ = ⟨["You are not allowed to use this bot"], 0, []⟩ :=
  handler_rejects_disallowed botOk ⟨some msgBob⟩ msgBob rfl (by decide)

/-- Claim C1: for every inbound message from an allowed sender, if URL
extraction yields an empty list the reply is the no-URLs text; otherwise
exactly the first extracted URL is passed to the link service Save, and the
reply is Error when Save returns an error and Saved! when it succeeds. -/
theorem handler_reply_outcomes (b : Bot) (u : TgUpdate) (msg : Message)
    (hm : u.Message = some msg)
    (hallow : contains b.allowedUsernames msg.From.Username = true) :
    (b.urlExtractor msg = [] →
        botUpdate b u = ⟨["No URLs found in the message"], 1, []⟩)
    ∧ (∀ first rest, b.urlExtractor msg = first :: rest →
        (botUpdate b u).saveCalls = [first]
        ∧ (∀ e, b.linkServiceSave first = .error e → (botUpdate b u).replies = ["Error"])
        ∧ (b.linkServiceSave first = .ok () → (botUpdate b u).replies = ["Saved!"])) := by
  have hb : botUpdate b u = (match b.urlExtractor msg with
      | [] => (⟨["No URLs found in the message"], 1, []⟩ : BotTrace)
      | firstUrl :: _ =>
        match b.linkServiceSave firstUrl with
        | .error _ => ⟨["Error"], 1, [firstUrl]⟩
        | .ok _ => ⟨["Saved!"], 1, [firstUrl]⟩) := by
    simp only [botUpdate, hm]
    rw [if_neg (by simp [hallow])]
  constructor
  · intro hempty
    rw [hb, hempty]
  · intro first rest hcons
    rcases hsave : b.linkServiceSave first with e | v
    · refine ⟨?_, fun e2 _ => ?_, fun hok => ?_⟩
      · simp [hb, hcons, hsave]
      · simp [hb, hcons, hsave]
      · exact Except.noConfusion hok
    · refine ⟨?_, fun e2 he2 => ?_, fun _ => ?_⟩
      · simp [hb, hcons, hsave]
      · exact Except.noConfusion he2
      · simp [hb, hcons, hsave]

theorem handler_reply_outcomes_witness :
    (botUpdate botOk ⟨some msgAlice⟩).replies = ["Saved!"]
    ∧ (botUpdate botOk ⟨some msgAlice⟩).saveCalls = ["http://a.com"] := by
  have h := (handler_reply_outcomes botOk ⟨some msgAlice⟩ msgAlice rfl (by decide)).2
    "http://a.com" [] rfl
  exact ⟨h.2.2 rfl, h.1⟩

/-- Claim C9 (amended): for every inbound update that carries a message,
exactly one outbound reply is sent (one rejection reply for a disallowed
sender, one outcome reply otherwise). -/
theorem handler_one_reply_per_message (b : Bot) (u : TgUpdate) (msg : Message)
    (hm : u.Message = some msg) :
    (botUpdate b u).replies.length = 1 := by
  simp only [botUpdate, hm]
  by_cases hallow : contains b.allowedUsernames msg.From.Username = true
  · rw [if_neg (by simp [hallow])]
    rcases hext : b.urlExtractor msg with _ | ⟨f, rest⟩
    · simp
    · simp only []
      rcases hsave : b.linkServiceSave f with e | v <;> simp [hsave]
  · rw [if_pos (by simpa using hallow)]
    rfl

theorem handler_one_reply_per_message_witness :
    (botUpdate botOk ⟨some msgAlice⟩).replies.length = 1 :=
  handler_one_reply_per_message botOk ⟨some msgAlice⟩ msgAlice rfl

/-- Claim C9 counterexample: an update whose Message field is nil is
delivered to the handler but produces zero outbound replies, refuting the
claim that every inbound update gets exactly one reply. -/
theorem handler_no_reply_on_nil_message :
    (botUpdate botOk ⟨none⟩).replies.length ≠ 1 := by
  decide

/-- Claim C2: for every Save call, normalization runs first and on its
failure Save errors with no metadata fetch and no bookmark POST; on
metadata-fetch failure Save errors with no POST; when both succeed, Save
submits exactly one payload whose url is the normalized URL, whose title
and description come from the fetched page metadata, and whose remaining
fields are the fixed defaults (empty notes, not archived, unread, not
shared, no tags). -/
theorem save_pipeline_effects (env : LinkServiceEnv) (url : String) :
    (∀ e, env.normalizeString url = .error e →
        (Save env url).result = .error "failed to normalize URL"
        ∧ (Save env url).fetchCalls = [] ∧ (Save env url).postCalls = [])
    ∧ (∀ n, env.normalizeString url = .ok n →
        (∀ e, env.getPageInfo n = .error e →
            (Save env url).result = .error "failed to get page info"
            ∧ (Save env url).postCalls = [])
        ∧ (∀ pi, env.getPageInfo n = .ok pi →
            (Save env url).fetchCalls = [n]
            ∧ (Save env url).postCalls
              = [⟨n, pi.title, pi.description, "", false, true, false, []⟩])) := by
  constructor
  · intro e he
    simp [Save, he]
  · intro n hn
    constructor
    · intro e he
      simp [Save, hn, he]
    · intro pi hpi
      simp only [Save, hn, hpi]
      split <;> exact ⟨rfl, rfl⟩

theorem save_pipeline_effects_witness :
    (Save envC2 "http://a.com").postCalls
      = [⟨"http://a.com", "Example", "", "", false, true, false, []⟩] := by
  have h := ((save_pipeline_effects envC2 "http://a.com").2 "http://a.com" rfl).2
    ⟨"http://a.com", "Example", ""⟩ rfl
  exact h.2

/-- Claim C3: when serialization, request construction, sending, and body
reading all succeed, CreateBookmark returns success if and only if the
HTTP status code is exactly 201; every other status yields an error
carrying that status code. -/
theorem create_bookmark_requires_201 (t : RepoTransport) (l : LinkdingRepositoryState)
    (p : CreateBookmarkPayload) (body path : String) (req : HttpRequest)
    (resp : HttpResponse) (respBody : String)
    (h1 : t.jsonMarshal p = .ok body)
    (h2 : t.urlJoinPath l.baseUrl "api/bookmarks/" = .ok path)
    (h3 : t.httpNewRequest "POST" path body = .ok req)
    (h4 : t.clientDo (setBookmarkHeaders req l.apiToken) = .ok resp)
    (h5 : t.ioReadAll resp = .ok respBody) :
    (CreateBookmark t l p = .ok () ↔ resp.StatusCode = 201)
    ∧ (resp.StatusCode ≠ 201 →
        CreateBookmark t l p = .error (.unexpectedStatus resp.StatusCode)) := by
  simp only [CreateBookmark, h1, h2, h3, h4, h5]
  by_cases hs : resp.StatusCode = 201 <;> simp [hs]

theorem create_bookmark_requires_201_witness :
    CreateBookmark transportC3 repoC3 payloadC3 = .error (.unexpectedStatus 200) := by
  have h := create_bookmark_requires_201 transportC3 repoC3 payloadC3
    "{}" "http://linkding/api/bookmarks/"
    ⟨"POST", "http://linkding/api/bookmarks/", "{}", []⟩ ⟨200, "oops", ""⟩ "oops"
    rfl rfl rfl rfl rfl
  exact h.2 (by decide)

/-- Claim C8: when the HTTP GET and the HTML parse succeed, GetPageInfo
returns a metadata record for the URL and never fails merely because title
or description are absent; when oEmbed metadata is generated it is
preferred over the raw HTML title and description. -/
theorem get_page_info_metadata (env : PageInfoEnv) (url : String)
    (resp : HttpResponse) (info : HtmlInfoResult)
    (hget : env.httpGet url = .ok resp)
    (hparse : env.htmlParse resp.Body url resp.ContentType = .ok info) :
    (∃ pi, GetPageInfo env url = .ok pi ∧ pi.url = url)
    ∧ (info.Oembed = none → GetPageInfo env url = .ok ⟨url, info.Title, info.Description⟩)
    ∧ (∀ o, info.Oembed = some o → GetPageInfo env url = .ok ⟨url, o.Title, o.Description⟩) := by
  simp only [GetPageInfo, hget, hparse]
  rcases ho : info.Oembed with _ | o
  · exact ⟨⟨⟨url, info.Title, info.Description⟩, rfl, rfl⟩, fun _ => rfl,
      fun o hso => Option.noConfusion hso⟩
  · refine ⟨⟨⟨url, o.Title, o.Description⟩, rfl, rfl⟩,
      fun hnone => Option.noConfusion hnone,
      fun o2 hso => ?_⟩
    injection hso with h2
    rw [h2]

theorem get_page_info_metadata_witness :
    GetPageInfo pageEnvC8 "http://a.com" = .ok ⟨"http://a.com", "", ""⟩ := by
  have h := get_page_info_metadata pageEnvC8 "http://a.com"
    ⟨200, "<html></html>", "text/html"⟩ ⟨"", "", none⟩ rfl rfl
  exact h.2.1 rfl

/-- Claim C7: a URL is in the output of the link-preview extractor if and
only if the link-preview descriptor is present, its URL is non-empty and
equal to that URL, and it is not marked disabled; consequently a disabled
link preview URL never appears in the extracted list. -/
theorem link_preview_url_iff (msg : Message) (u : String) :
    u ∈ GetUrlsFromLinkPreview msg
      ↔ ∃ link, msg.LinkPreviewOptions = some link
          ∧ link.URL = u ∧ link.URL ≠ "" ∧ link.IsDisabled = false := by
  cases hl : msg.LinkPreviewOptions with
  | none => simp [GetUrlsFromLinkPreview, hl]
  | some link =>
    simp only [GetUrlsFromLinkPreview, hl, Option.some_inj]
    by_cases hc : link.URL ≠ "" ∧ link.IsDisabled = false
    · rw [if_pos hc]
      constructor
      · intro hmem
        rcases List.mem_singleton.1 hmem with rfl
        exact ⟨link, rfl, rfl, hc.1, hc.2⟩
      · rintro ⟨l, rfl, rfl, _, _⟩
        exact List.mem_singleton.2 rfl
    · rw [if_neg hc]
      simp only [List.not_mem_nil, false_iff]
      rintro ⟨l, rfl, rfl, hne, hdis⟩
      exact hc ⟨hne, hdis⟩

/-- Claim C4: for a span of kind url or text_link whose explicit URL field
is empty, extraction recovers the URL by slicing the message text at the
span offset and length measured in UTF-16 code units: whenever the text is
pre ++ link ++ post and the offset and length are the UTF-16 code-unit
lengths of pre and link, extraction returns exactly link — including when
pre contains characters outside the Basic Multilingual Plane. -/
theorem extraction_slices_utf16 (msg : Message) (e : MessageEntity)
    (pre link post : String)
    (hText : msg.Text = pre ++ link ++ post)
    (hE : msg.Entities = [e]) (hC : msg.CaptionEntities = [])
    (hk : e.type = "url" ∨ e.type = "text_link") (hu : e.URL = "")
    (hoff : e.Offset = utf16Length pre) (hlen : e.Length = utf16Length link) :
    GetUrlsFromEntities msg = some [link] := by
  simp only [GetUrlsFromEntities, hE, hC, List.append_nil]
  simp only [getUrlsFromEntitiesLoop]
  rw [if_neg (by rcases hk with h | h <;> simp [h])]
  rw [if_neg (by simp [hu])]
  rw [hText, hoff, hlen, sliceUtf16_of_append]
  rfl

theorem extraction_slices_utf16_witness :
    GetUrlsFromEntities emojiMsg = some ["http://a.com"] :=
  extraction_slices_utf16 emojiMsg ⟨"url", "", 3, 12⟩ "😀 " "http://a.com" ""
    (by decide) rfl rfl (Or.inl rfl) rfl (by decide) (by decide)

/-- Claim C10: extraction from annotated spans is not total: for a caption
entity (sliced against the Text field of the message, which is empty for a
caption message) whose offset plus length exceeds the UTF-16 code-unit
length of the text, sliceUtf16 indexes out of range and extraction panics
(modelled as none) instead of returning a value. -/
theorem extraction_panics_on_caption_entity :
    utf16Length captionMsg.Text < 5 ∧ GetUrlsFromEntities captionMsg = none := by
  constructor
  · decide
  · decide

end LinkdingTgRelay
